import Mathlib

/-!
Shallow embedding of the CSBS backend (src/server.js): the work/status data
model, the per-work counts recalculation, the global totals recomputation,
the status-upsert route, and the register/login handlers.  Mongo documents
become Lean structures; `null`/absent values become `Option`; the external
collaborators (bcrypt, jwt) are passed in as opaque parameters.
-/

namespace CSBS

/-- One element of a work document's `status` array (workStatusSubSchema):
user id, username snapshot, state string, last-update timestamp. -/
structure StatusEntry where
  userId : String
  username : String
  state : String
  updatedAt : Nat
deriving Repr, DecidableEq

/-- The cached per-work counts subdocument (workCountsSubSchema). -/
structure WorkCounts where
  completed : Nat
  doing : Nat
  notYetStarted : Nat
deriving Repr, DecidableEq

/-- A work (assignment) document (workSchema).  The `status` field is
`Option` so that a document missing the field can be represented, matching
the defensive `workDoc.status || []` in `recalcAndSaveWorkCounts`. -/
structure Work where
  subject : String
  work : String
  deadline : String
  addedBy : String
  fileUrl : String
  createdAt : Nat
  status : Option (List StatusEntry)
  counts : WorkCounts
deriving Repr, DecidableEq

/-- The single global totals document (workTotalsSchema). -/
structure WorkTotals where
  totalWorks : Nat
  completed : Nat
  doing : Nat
  notYetStarted : Nat
  updatedAt : Nat
deriving Repr, DecidableEq

/-- The body of the `forEach` loop in `recalcAndSaveWorkCounts`:
increment the field matching the entry's state, anything other than
"completed" or "doing" counting as not yet started. -/
def recalcStep (c : WorkCounts) (s : StatusEntry) : WorkCounts :=
  if s.state = "completed" then { c with completed := c.completed + 1 }
  else if s.state = "doing" then { c with doing := c.doing + 1 }
  else { c with notYetStarted := c.notYetStarted + 1 }

/-- The counts aggregation of `recalcAndSaveWorkCounts`: fold the forEach
body over the status list starting from `{completed: 0, doing: 0,
notYetStarted: 0}`. -/
def recalcCounts (l : List StatusEntry) : WorkCounts :=
  l.foldl recalcStep ⟨0, 0, 0⟩

/-- The effect of `recalcAndSaveWorkCounts` on a present work document:
replace `counts` with the aggregation of `status` (absent status read as
the empty array, per `workDoc.status || []`). -/
def recalcWork (w : Work) : Work :=
  { w with counts := recalcCounts (w.status.getD []) }

/-- `recalcAndSaveWorkCounts(workDoc)`: returns `null` for a null
document, otherwise saves the recalculated counts and returns the updated
document. -/
def recalcAndSaveWorkCounts (workDoc : Option Work) : Option Work :=
  workDoc.map recalcWork

/-- The status-upsert scan of the `POST /api/work/status/:workId` handler:
find the first entry whose `userId` matches; if found, overwrite its
`state`, `username` and `updatedAt` in place; otherwise append a new
entry (the `findIndex` / update-or-`push` logic). -/
def upsertEntry (l : List StatusEntry) (uid uname st : String) (now : Nat) :
    List StatusEntry :=
  match l with
  | [] => [⟨uid, uname, st, now⟩]
  | e :: rest =>
    if e.userId = uid then
      { e with username := uname, state := st, updatedAt := now } :: rest
    else
      e :: upsertEntry rest uid uname st now

/-- The successful path of the status-upsert route: mutate the status
array via the update-or-push scan, then recalculate and save the work's
counts. -/
def statusUpsertOp (w : Work) (uid uname st : String) (now : Nat) : Work :=
  recalcWork { w with status := some (upsertEntry (w.status.getD []) uid uname st now) }

/-- One status-upsert request body (`{ userId, username, state }`) plus
the server timestamp taken at handling time. -/
structure UpsertReq where
  userId : String
  username : String
  state : String
  now : Nat
deriving Repr, DecidableEq

/-- A sequence of successful status-upsert operations applied to a work
document, in order. -/
def applyUpserts (w : Work) : List UpsertReq → Work
  | [] => w
  | r :: rs => applyUpserts (statusUpsertOp w r.userId r.username r.state r.now) rs

/-- `recomputeAndSaveGlobalTotals()`: aggregate `$group` over all work
documents (an empty collection produces no aggregation row, hence the
zero branch), written into the single `WorkTotals` document, which is
created when absent; every field of it is overwritten. -/
def recomputeAndSaveGlobalTotals (works : List Work) (prior : Option WorkTotals)
    (now : Nat) : WorkTotals :=
  let totalsDoc := prior.getD ⟨0, 0, 0, 0, 0⟩
  match works with
  | [] =>
    { totalsDoc with
      totalWorks := 0, completed := 0, doing := 0, notYetStarted := 0, updatedAt := now }
  | _ =>
    { totalsDoc with
      totalWorks := works.length
      completed := (works.map fun w => w.counts.completed).sum
      doing := (works.map fun w => w.counts.doing).sum
      notYetStarted := (works.map fun w => w.counts.notYetStarted).sum
      updatedAt := now }

/-- The `POST /api/work/recompute-totals` handler: first recalculate every
work's counts from its status list, then recompute the global totals over
the updated works.  Returns the updated works and the totals document. -/
def recomputeTotalsRoute (works : List Work) (prior : Option WorkTotals)
    (now : Nat) : List Work × WorkTotals :=
  let works2 := works.map recalcWork
  (works2, recomputeAndSaveGlobalTotals works2 prior now)

/-- `isValidState(s)`: membership in the three legal state strings. -/
def isValidState (s : String) : Bool :=
  ["completed", "doing", "not yet started"].contains s

/-- Outcome of the `POST /api/work/status/:workId` handler: HTTP status,
`success` flag, `message`, and the work document written back to the
store (`none` when nothing was saved). -/
structure StatusRouteResult where
  httpStatus : Nat
  success : Bool
  message : String
  savedWork : Option Work
deriving Repr, DecidableEq

/-- The `POST /api/work/status/:workId` handler: require truthy `userId`,
`username`, `state` (absent or empty string fails), validate the state
against the enum, 404 on a missing work, otherwise run the upsert and
recalculation. -/
def postWorkStatus (findWork : Option Work) (userId username state : Option String)
    (now : Nat) : StatusRouteResult :=
  match userId, username, state with
  | some uid, some uname, some s =>
    if uid = "" ∨ uname = "" ∨ s = "" then
      ⟨400, false, "userId, username, state required", none⟩
    else if isValidState s = false then
      ⟨400, false, "Invalid state", none⟩
    else
      match findWork with
      | none => ⟨404, false, "Work not found", none⟩
      | some w => ⟨200, true, "Status updated", some (statusUpsertOp w uid uname s now)⟩
  | _, _, _ => ⟨400, false, "userId, username, state required", none⟩

/-- A user document (userSchema): email, hashed password, optional name,
and the plaintext password field `pb`. -/
structure User where
  email : String
  password : String
  name : Option String
  pb : String
deriving Repr, DecidableEq

/-- A JSON response body with the fields the register/login handlers may
emit; `none` models an absent field. -/
structure Envelope where
  success : Option Bool
  message : Option String
  token : Option String
  error : Option String
deriving Repr, DecidableEq

/-- An HTTP reply: status code and JSON body. -/
structure RouteReply where
  httpStatus : Nat
  body : Envelope
deriving Repr, DecidableEq

/-- The `POST /api/register` handler (its non-exceptional paths): require
truthy email and password, reject a duplicate email with 400
"Email already exists", otherwise append the new user (hashing is the
external bcrypt call, so the hash is a parameter).  Returns the reply and
the user store afterwards. -/
def registerHandler (users : List User) (email password name : Option String)
    (hashed : String) : RouteReply × List User :=
  match email, password with
  | some e, some p =>
    if e = "" ∨ p = "" then
      (⟨400, ⟨none, some "email & password required", none, none⟩⟩, users)
    else if users.any fun u => u.email == e then
      (⟨400, ⟨none, some "Email already exists", none, none⟩⟩, users)
    else
      (⟨201, ⟨some true, some "User registered", none, none⟩⟩, users ++ [⟨e, hashed, name, p⟩])
  | _, _ => (⟨400, ⟨none, some "email & password required", none, none⟩⟩, users)

/-- The `POST /api/login` handler (its non-exceptional paths): require
truthy email and password, look the user up by email, compare the
password through the external bcrypt oracle `compareHash`, and issue the
externally signed `token` on success. -/
def loginHandler (users : List User) (email password : Option String)
    (compareHash : String → String → Bool) (token : String) : RouteReply :=
  match email, password with
  | some e, some p =>
    if e = "" ∨ p = "" then
      ⟨400, ⟨none, some "email & password required", none, none⟩⟩
    else
      match users.find? fun u => u.email == e with
      | none => ⟨401, ⟨none, some "Invalid credentials", none, none⟩⟩
      | some u =>
        if compareHash p u.password then
          ⟨200, ⟨some true, none, some token, none⟩⟩
        else
          ⟨401, ⟨none, some "Invalid credentials", none, none⟩⟩
  | _, _ => ⟨400, ⟨none, some "email & password required", none, none⟩⟩

/-- The per-work counts invariant of the spec: the three cached counts sum
to the length of the status list. -/
def countsInvariant (w : Work) : Prop :=
  w.counts.completed + w.counts.doing + w.counts.notYetStarted = (w.status.getD []).length

/-- Number of status entries carrying a given user id. -/
def countFor (l : List StatusEntry) (uid : String) : Nat :=
  l.countP fun s => s.userId == uid

/-- A sample work document used by concrete witnesses. -/
def sampleWork : Work :=
  { subject := "Math", work := "HW1", deadline := "2024-01-01", addedBy := "Admin",
    fileUrl := "", createdAt := 0, status := some [], counts := ⟨0, 0, 0⟩ }

/-- Generalised accumulator form of the counts fold: each field of the
result is the accumulator's field plus the matching count. -/
lemma foldl_recalcStep (l : List StatusEntry) (c : WorkCounts) :
    l.foldl recalcStep c =
      ⟨c.completed + l.countP (fun s => s.state == "completed"),
       c.doing + l.countP (fun s => s.state == "doing"),
       c.notYetStarted +
         l.countP (fun s => s.state != "completed" && s.state != "doing")⟩ := by
  induction l generalizing c with
  | nil => simp [List.countP_nil]
  | cons e rest ih =>
    simp only [List.foldl_cons, List.countP_cons, ih]
    by_cases h1 : e.state = "completed"
    · simp [recalcStep, h1]
      omega
    · by_cases h2 : e.state = "doing"
      · simp [recalcStep, h1, h2]
        omega
      · simp [recalcStep, h1, h2]
        omega

/-- The three state predicates partition any status list. -/
lemma countP_states_partition (l : List StatusEntry) :
    l.countP (fun s => s.state == "completed") +
      l.countP (fun s => s.state == "doing") +
      l.countP (fun s => s.state != "completed" && s.state != "doing") = l.length := by
  induction l with
  | nil => simp
  | cons e rest ih =>
    simp only [List.countP_cons, List.length_cons]
    by_cases h1 : e.state = "completed"
    · simp [h1]; omega
    · by_cases h2 : e.state = "doing"
      · simp [h1, h2]; omega
      · simp [h1, h2]; omega

/-- The recalculated counts of any status list sum to its length. -/
lemma recalcCounts_sum (l : List StatusEntry) :
    (recalcCounts l).completed + (recalcCounts l).doing + (recalcCounts l).notYetStarted
      = l.length := by
  rw [recalcCounts, foldl_recalcStep]
  simpa using countP_states_partition l

/-- Any single successful upsert leaves the work satisfying the counts
invariant, whatever the work looked like before. -/
lemma statusUpsertOp_invariant (w : Work) (uid uname st : String) (now : Nat) :
    countsInvariant (statusUpsertOp w uid uname st now) := by
  simp only [statusUpsertOp, recalcWork, countsInvariant]
  exact recalcCounts_sum _

/-- C3: the per-assignment counts recalculation returns exactly the three
tallies: entries whose state is "completed", entries whose state is
"doing", and all remaining entries as notYetStarted. -/
theorem recalcCounts_matches_tallies (l : List StatusEntry) :
    recalcCounts l =
      ⟨l.countP (fun s => s.state == "completed"),
       l.countP (fun s => s.state == "doing"),
       l.countP (fun s => s.state != "completed" && s.state != "doing")⟩ := by
  rw [recalcCounts, foldl_recalcStep]
  simp

/-- C1: after any nonempty sequence of successful status-upsert
operations, the cached counts of the work sum to the length of its status
list. -/
theorem applyUpserts_counts_invariant (w : Work) (r : UpsertReq) (rs : List UpsertReq) :
    countsInvariant (applyUpserts w (r :: rs)) := by
  induction rs generalizing w r with
  | nil => exact statusUpsertOp_invariant w r.userId r.username r.state r.now
  | cons r2 rs2 ih =>
    show countsInvariant (applyUpserts (statusUpsertOp w r.userId r.username r.state r.now) (r2 :: rs2))
    exact ih _ r2

/-- C5: the per-assignment counts recalculation is idempotent; the second
call rewrites the identical document. -/
theorem recalcAndSaveWorkCounts_idempotent (workDoc : Option Work) :
    recalcAndSaveWorkCounts (recalcAndSaveWorkCounts workDoc) =
      recalcAndSaveWorkCounts workDoc := by
  cases workDoc <;> rfl

/-- An upsert for a different user never changes how many entries carry a
given user id: a matched entry keeps its user id, and an appended entry
carries the other id. -/
lemma countFor_upsertEntry_ne (l : List StatusEntry) (uid uname st : String) (now : Nat)
    (other : String) (h : uid ≠ other) :
    countFor (upsertEntry l uid uname st now) other = countFor l other := by
  induction l with
  | nil => simp [upsertEntry, countFor, h]
  | cons e rest ih =>
    by_cases he : e.userId = uid
    · simp [upsertEntry, he, countFor, List.countP_cons]
    · simp only [upsertEntry, he, if_false, countFor, List.countP_cons]
      simp only [countFor] at ih
      rw [ih]

/-- An upsert for a user leaves at most `max (previous count) 1` entries
for that user: a match rewrites in place, a miss appends exactly one. -/
lemma countFor_upsertEntry_self (l : List StatusEntry) (uid uname st : String) (now : Nat) :
    countFor (upsertEntry l uid uname st now) uid ≤ max (countFor l uid) 1 := by
  induction l with
  | nil => simp [upsertEntry, countFor]
  | cons e rest ih =>
    by_cases he : e.userId = uid
    · simp [upsertEntry, he, countFor, List.countP_cons]
    · simp only [upsertEntry, he, if_false]
      simp only [countFor, List.countP_cons] at ih ⊢
      simp only [show (e.userId == uid) = false by simp [he]]
      simp only [Bool.false_eq_true, if_false]
      omega

/-- One upsert, for any user, preserves "at most one entry per user id". -/
lemma countFor_upsertEntry_le_one (l : List StatusEntry) (uid uname st : String)
    (now : Nat) (other : String) (h : countFor l other ≤ 1) :
    countFor (upsertEntry l uid uname st now) other ≤ 1 := by
  by_cases huid : uid = other
  · subst huid
    have := countFor_upsertEntry_self l uid uname st now
    omega
  · rw [countFor_upsertEntry_ne l uid uname st now other huid]
    exact h

/-- C2: for every work and user id, if the status list holds at most one
entry for that id, then after any sequence of status-upsert operations it
still holds at most one entry for that id (matching is by user id, an
existing entry is overwritten in place, a new entry is appended only when
no match exists). -/
theorem applyUpserts_at_most_one_per_user (w : Work) (rs : List UpsertReq) (uid : String)
    (h : countFor (w.status.getD []) uid ≤ 1) :
    countFor ((applyUpserts w rs).status.getD []) uid ≤ 1 := by
  induction rs generalizing w with
  | nil => exact h
  | cons r rs2 ih =>
    show countFor ((applyUpserts (statusUpsertOp w r.userId r.username r.state r.now) rs2).status.getD []) uid ≤ 1
    apply ih
    simp only [statusUpsertOp, recalcWork, Option.getD_some]
    exact countFor_upsertEntry_le_one _ _ _ _ _ _ h

/-- C2 witness: a fresh work receives two upserts for the same user and
one for another; each user id still has at most one entry. -/
theorem applyUpserts_at_most_one_per_user_witness :
    countFor (sampleWork.status.getD []) "u1" ≤ 1 ∧
      countFor ((applyUpserts sampleWork
        [⟨"u1", "Asha", "doing", 1⟩, ⟨"u2", "Bala", "not yet started", 2⟩,
         ⟨"u1", "Asha", "completed", 3⟩]).status.getD []) "u1" ≤ 1 :=
  ⟨by decide,
   applyUpserts_at_most_one_per_user sampleWork
     [⟨"u1", "Asha", "doing", 1⟩, ⟨"u2", "Bala", "not yet started", 2⟩,
      ⟨"u1", "Asha", "completed", 3⟩] "u1" (by decide)⟩

/-- C4: after the forced recompute route, the totals document counts the
work records and sums each counts field over the (just recalculated)
works, and the result does not depend on any prior totals document (it is
freshly written even when absent). -/
theorem recomputeTotalsRoute_correct (works : List Work) (prior : Option WorkTotals)
    (now : Nat) :
    (recomputeTotalsRoute works prior now).2.totalWorks = works.length ∧
    (recomputeTotalsRoute works prior now).2.completed =
      ((recomputeTotalsRoute works prior now).1.map fun w => w.counts.completed).sum ∧
    (recomputeTotalsRoute works prior now).2.doing =
      ((recomputeTotalsRoute works prior now).1.map fun w => w.counts.doing).sum ∧
    (recomputeTotalsRoute works prior now).2.notYetStarted =
      ((recomputeTotalsRoute works prior now).1.map fun w => w.counts.notYetStarted).sum ∧
    ∀ prior2 : Option WorkTotals,
      recomputeTotalsRoute works prior now = recomputeTotalsRoute works prior2 now := by
  cases works with
  | nil => exact ⟨rfl, rfl, rfl, rfl, fun _ => rfl⟩
  | cons w ws =>
    refine ⟨?_, rfl, rfl, rfl, fun _ => rfl⟩
    simp [recomputeTotalsRoute, recomputeAndSaveGlobalTotals]

/-- C9: the recalculation returns null on a null document without any
write, and a document missing its status field is counted as empty,
yielding all-zero counts. -/
theorem recalcAndSaveWorkCounts_null_and_missing :
    recalcAndSaveWorkCounts none = none ∧
      ∀ w : Work, w.status = none →
        recalcAndSaveWorkCounts (some w) = some { w with counts := ⟨0, 0, 0⟩ } := by
  refine ⟨rfl, fun w hw => ?_⟩
  simp [recalcAndSaveWorkCounts, recalcWork, hw, recalcCounts]

/-- C9 witness: a concrete work document with no status field recalculates
to zero counts. -/
theorem recalcAndSaveWorkCounts_null_and_missing_witness :
    recalcAndSaveWorkCounts (some { sampleWork with status := none }) =
      some { sampleWork with status := none, counts := ⟨0, 0, 0⟩ } :=
  recalcAndSaveWorkCounts_null_and_missing.2 { sampleWork with status := none } rfl

/-- C10: recomputing global totals over an empty work collection writes
zero into all four count fields, whatever totals document (or none at
all) existed before. -/
theorem recomputeAndSaveGlobalTotals_empty (prior : Option WorkTotals) (now : Nat) :
    recomputeAndSaveGlobalTotals [] prior now = ⟨0, 0, 0, 0, now⟩ := by
  cases prior <;> rfl

/-- C6: a status-upsert request whose state value is not exactly one of
"completed", "doing", "not yet started" is rejected with HTTP 400 and no
work document is saved; each of the three exact strings passes the state
validator. -/
theorem postWorkStatus_rejects_bad_state (findWork : Option Work)
    (userId username state : Option String) (now : Nat)
    (h : ∀ s, state = some s →
      s ≠ "completed" ∧ s ≠ "doing" ∧ s ≠ "not yet started") :
    ((postWorkStatus findWork userId username state now).httpStatus = 400 ∧
      (postWorkStatus findWork userId username state now).savedWork = none) ∧
    (isValidState "completed" = true ∧ isValidState "doing" = true ∧
      isValidState "not yet started" = true) := by
  refine ⟨?_, by decide, by decide, by decide⟩
  match userId, username, state with
  | none, _, _ => exact ⟨rfl, rfl⟩
  | some uid, none, _ => exact ⟨rfl, rfl⟩
  | some uid, some uname, none => exact ⟨rfl, rfl⟩
  | some uid, some uname, some s =>
    obtain ⟨h1, h2, h3⟩ := h s rfl
    by_cases hempty : uid = "" ∨ uname = "" ∨ s = ""
    · simp [postWorkStatus, hempty]
    · have hvalid : isValidState s = false := by
        simp [isValidState, h1, h2, h3]
      simp [postWorkStatus, hempty, hvalid]

/-- C6 witness: the concrete state "finished" on an existing work is
rejected with 400 and nothing saved. -/
theorem postWorkStatus_rejects_bad_state_witness :
    ((postWorkStatus (some sampleWork) (some "u1") (some "Asha") (some "finished") 5).httpStatus = 400 ∧
      (postWorkStatus (some sampleWork) (some "u1") (some "Asha") (some "finished") 5).savedWork = none) ∧
    (isValidState "completed" = true ∧ isValidState "doing" = true ∧
      isValidState "not yet started" = true) :=
  postWorkStatus_rejects_bad_state (some sampleWork) (some "u1") (some "Asha")
    (some "finished") 5
    (fun s hs => by
      injection hs with hs2
      subst hs2
      exact ⟨by decide, by decide, by decide⟩)

/-- C7 counterexample: the register route's duplicate-email response is a
400 whose JSON body has no `success` field at all, refuting "every
response body contains at least a boolean success field". -/
theorem register_response_without_success_field :
    ((registerHandler [⟨"a@b.c", "hashedpw", none, "pw"⟩]
        (some "a@b.c") (some "pw") none "hashedpw").1.body.success = none) ∧
    ((registerHandler [⟨"a@b.c", "hashedpw", none, "pw"⟩]
        (some "a@b.c") (some "pw") none "hashedpw").1.httpStatus = 400) := by
  constructor <;> rfl

/-- C7 (amended): every register response and every login response
carries a `message` field or is a 200 success carrying `success = true`;
in particular every error response (status 400 and up) carries `message`.
The register and login 400/401 bodies, however, omit the boolean
`success` field, so not every response carries one. -/
theorem register_login_error_envelope (users : List User)
    (email password name : Option String) (hashed : String)
    (compareHash : String → String → Bool) (token : String) :
    ((registerHandler users email password name hashed).1.body.message.isSome = true) ∧
    (400 ≤ (registerHandler users email password name hashed).1.httpStatus →
      (registerHandler users email password name hashed).1.body.message.isSome = true) ∧
    ((loginHandler users email password compareHash token).body.message.isSome = true ∨
      ((loginHandler users email password compareHash token).httpStatus = 200 ∧
        (loginHandler users email password compareHash token).body.success = some true)) ∧
    (400 ≤ (loginHandler users email password compareHash token).httpStatus →
      (loginHandler users email password compareHash token).body.message.isSome = true) := by
  refine ⟨?_, fun _ => ?_, ?_, fun hge => ?_⟩
  · match email, password with
    | none, _ => rfl
    | some e, none => rfl
    | some e, some p =>
      by_cases hempty : e = "" ∨ p = ""
      · simp [registerHandler, hempty]
      · by_cases hex : (users.any fun u => u.email == e) = true
        · simp [registerHandler, hempty, hex]
        · simp [registerHandler, hempty, hex]
  · match email, password with
    | none, _ => rfl
    | some e, none => rfl
    | some e, some p =>
      by_cases hempty : e = "" ∨ p = ""
      · simp [registerHandler, hempty]
      · by_cases hex : (users.any fun u => u.email == e) = true
        · simp [registerHandler, hempty, hex]
        · simp [registerHandler, hempty, hex]
  · match email, password with
    | none, _ => exact Or.inl rfl
    | some e, none => exact Or.inl rfl
    | some e, some p =>
      by_cases hempty : e = "" ∨ p = ""
      · left; simp [loginHandler, hempty]
      · match hfind : users.find? fun u => u.email == e with
        | none => left; simp [loginHandler, hempty, hfind]
        | some u =>
          by_cases hcmp : compareHash p u.password = true
          · right; simp [loginHandler, hempty, hfind, hcmp]
          · left; simp [loginHandler, hempty, hfind, hcmp]
  · match email, password with
    | none, _ => rfl
    | some e, none => rfl
    | some e, some p =>
      by_cases hempty : e = "" ∨ p = ""
      · simp [loginHandler, hempty]
      · match hfind : users.find? fun u => u.email == e with
        | none => simp [loginHandler, hempty, hfind]
        | some u =>
          by_cases hcmp : compareHash p u.password = true
          · exfalso
            simp [loginHandler, hempty, hfind, hcmp] at hge
          · simp [loginHandler, hempty, hfind, hcmp]

/-- C7 amended witness: concrete register and login calls, showing the
error envelopes carry a message. -/
theorem register_login_error_envelope_witness :
    ((registerHandler [] (some "a@b.c") (some "pw") none "h").1.body.message.isSome = true) ∧
    ((loginHandler [] (some "a@b.c") (some "pw") (fun _ _ => false) "t").body.message.isSome = true) := by
  have h := register_login_error_envelope [] (some "a@b.c") (some "pw") none "h"
    (fun _ _ => false) "t"
  refine ⟨h.1, ?_⟩
  rcases h.2.2.1 with hm | hok
  · exact hm
  · exact absurd hok.1 (by decide)

/-- C8: registering with an email already present in the store yields 400
with message "Email already exists" and leaves the user store unchanged. -/
theorem register_duplicate_email (users : List User) (e p : String) (name : Option String)
    (hashed : String) (he : e ≠ "") (hp : p ≠ "")
    (hmem : (users.any fun u => u.email == e) = true) :
    registerHandler users (some e) (some p) name hashed =
      (⟨400, ⟨none, some "Email already exists", none, none⟩⟩, users) := by
  have hempty : ¬(e = "" ∨ p = "") := by
    rintro (h1 | h2)
    · exact he h1
    · exact hp h2
  simp [registerHandler, hempty, hmem]

/-- C8 witness: a concrete duplicate registration is rejected and the
store is returned unchanged. -/
theorem register_duplicate_email_witness :
    registerHandler [⟨"a@b.c", "h1", none, "pw1"⟩] (some "a@b.c") (some "pw2") none "h2" =
      (⟨400, ⟨none, some "Email already exists", none, none⟩⟩,
        [⟨"a@b.c", "h1", none, "pw1"⟩]) :=
  register_duplicate_email [⟨"a@b.c", "h1", none, "pw1"⟩] "a@b.c" "pw2" none "h2"
    (by decide) (by decide) (by decide)

end CSBS
